import Mathlib

/-!
Verification of the telemetry decoding and bounded sliding-window buffering
core of the Muse live-visualization application (`muse_direct_vis.py`,
`muse_vis_simple.py`).

Times and sample values are modelled as rationals; raw frames are lists of
byte values (naturals, reduced mod 256 where the code reads them).
-/

namespace MuseVis

/-- Channel names for the EEG modality (`MUSE_CHANNELS` in the source). -/
def MUSE_CHANNELS : List String := ["TP9", "AF7", "AF8", "TP10"]

/-- Channel names for the accelerometer modality (`ACC_CHANNELS`). -/
def ACC_CHANNELS : List String := ["X", "Y", "Z"]

/-- Channel names for the gyroscope modality (`GYRO_CHANNELS`). -/
def GYRO_CHANNELS : List String := ["X", "Y", "Z"]

/-- Channel names for the PPG modality (`PPG_CHANNELS`). -/
def PPG_CHANNELS : List String := ["PPG1", "PPG2", "PPG3"]

/-- The three-byte start command `MUSE_START_COMMAND = bytearray([0x02, 0x64, 0x0a])`. -/
def MUSE_START_COMMAND : List Nat := [0x02, 0x64, 0x0a]

/-- The three-byte stop command `MUSE_STOP_COMMAND = bytearray([0x02, 0x68, 0x0a])`. -/
def MUSE_STOP_COMMAND : List Nat := [0x02, 0x68, 0x0a]

/-- The three-byte preset command `MUSE_PRESET_12 = bytearray([0x02, 0x73, 0x0a])`. -/
def MUSE_PRESET_12 : List Nat := [0x02, 0x73, 0x0a]

/-- A raw notification payload: a list of byte values. -/
abbrev Frame := List Nat

/-- Python slice `data[s:e]` on a byte string (for `0 <= s <= e`): drop `s`
then take `e - s`; clamps at the end of the list exactly as Python does. -/
def pySlice (data : Frame) (s e : Nat) : Frame :=
  (data.drop s).take (e - s)

/-- `int.from_bytes(bs, byteorder='little', signed=True)`: assemble the
little-endian unsigned value, then apply two's complement on `8 * len(bs)`
bits.  Each byte is reduced mod 256 (a Python `bytes` element is `< 256`). -/
def intFromBytesLE (bs : List Nat) : ℤ :=
  let u : Nat := bs.foldr (fun b acc => b % 256 + 256 * acc) 0
  if u < 2 ^ (8 * bs.length - 1) then (u : ℤ) else (u : ℤ) - 2 ^ (8 * bs.length)

/-- The little-endian signed 16-bit integer with low byte `lo` and high
byte `hi` (the value `int.from_bytes` yields on a 2-byte slice). -/
def signed16LE (lo hi : Nat) : ℤ :=
  let u : Nat := lo % 256 + 256 * (hi % 256)
  if u < 32768 then (u : ℤ) else (u : ℤ) - 65536

/-- EEG decoding from `handle_eeg`: for each of the four channels `i`,
read `data[i*5 : i*5+2]` as a little-endian signed 16-bit integer and
scale by `0.1` (microvolts). -/
def decodeEEG (data : Frame) : List ℚ :=
  (List.range MUSE_CHANNELS.length).map
    (fun i => (intFromBytesLE (pySlice data (i * 5) (i * 5 + 2)) : ℚ) * (1 / 10))

/-- Accelerometer decoding from `handle_accelerometer`: for each of the
three channels `i`, read `data[i*2 : (i+1)*2]` as a little-endian signed
16-bit integer and divide by `16384.0` (g, ±2g range). -/
def decodeACC (data : Frame) : List ℚ :=
  (List.range ACC_CHANNELS.length).map
    (fun i => (intFromBytesLE (pySlice data (i * 2) ((i + 1) * 2)) : ℚ) / 16384)

/-- Gyroscope decoding from `handle_gyroscope`: for each of the three
channels `i`, read `data[i*2 : (i+1)*2]` as a little-endian signed 16-bit
integer and scale by `0.0074768` (deg/s, ±500 dps range). -/
def decodeGYRO (data : Frame) : List ℚ :=
  (List.range GYRO_CHANNELS.length).map
    (fun i => (intFromBytesLE (pySlice data (i * 2) ((i + 1) * 2)) : ℚ) * (74768 / 10000000))

/-- PPG decoding from `handle_ppg`: for each of the three channels `i`,
read `data[i*2 : (i+1)*2]` as a little-endian signed 16-bit integer,
unscaled (arbitrary units). -/
def decodePPG (data : Frame) : List ℚ :=
  (List.range PPG_CHANNELS.length).map
    (fun i => (intFromBytesLE (pySlice data (i * 2) ((i + 1) * 2)) : ℚ))

/-- Decode errors of the codec layer (spec §7); a frame shorter than the
modality's minimum length is dropped by the source's length guard. -/
inductive DecodeError where
  | truncatedFrame
deriving DecidableEq

/-- The codec contract: the handlers' length guard (`if len(data) >= minLen:`)
expressed as a `Result`; a shorter frame is a `TruncatedFrame` error. -/
def decodeChecked (minLen : Nat) (dec : Frame → List ℚ) (data : Frame) :
    Except DecodeError (List ℚ) :=
  if minLen ≤ data.length then .ok (dec data) else .error .truncatedFrame

/-- EEG codec with the `len(data) >= 20` guard of `handle_eeg`. -/
def decodeEEGChecked : Frame → Except DecodeError (List ℚ) :=
  decodeChecked 20 decodeEEG

/-- Accelerometer codec with the `len(data) >= 6` guard of `handle_accelerometer`. -/
def decodeACCChecked : Frame → Except DecodeError (List ℚ) :=
  decodeChecked 6 decodeACC

/-- Gyroscope codec with the `len(data) >= 6` guard of `handle_gyroscope`. -/
def decodeGYROChecked : Frame → Except DecodeError (List ℚ) :=
  decodeChecked 6 decodeGYRO

/-- PPG codec with the `len(data) >= 6` guard of `handle_ppg`. -/
def decodePPGChecked : Frame → Except DecodeError (List ℚ) :=
  decodeChecked 6 decodePPG

/-! ### Stream aggregator: per-modality channel buffers and shared timestamps -/

/-- Per-modality buffer state: the shared timestamp list (e.g. `eeg_times`)
and one value list per channel, in channel order (e.g. `eeg_data[ch]` for
`ch` in `MUSE_CHANNELS`). -/
structure StreamBufs where
  times : List ℚ
  chans : List (List ℚ)
deriving DecidableEq

/-- Fresh buffers for a modality with `n` channels:
`{ch: [] for ch in CHANNELS}` and `times = []`. -/
def emptyBufs (n : Nat) : StreamBufs :=
  { times := [], chans := List.replicate n [] }

/-- One channel's append step from the handlers:
`if len(buf) > 500: buf.pop(0)` then `buf.append(value)`. -/
def pushEvict (buf : List ℚ) (v : ℚ) : List ℚ :=
  (if 500 < buf.length then buf.drop 1 else buf) ++ [v]

/-- One frame's buffer update from the handlers: every channel runs
`pushEvict` on its own buffer with its decoded value, and the shared
timestamp list pops index 0 exactly when the first channel's buffer was
over 500 entries (the `timestamp_added` flag confines both timestamp
operations to the first loop iteration), then appends the new timestamp. -/
def appendFrame (m : StreamBufs) (t : ℚ) (vs : List ℚ) : StreamBufs :=
  { times := (if 500 < (m.chans.headD []).length then m.times.drop 1 else m.times) ++ [t],
    chans := List.zipWith pushEvict m.chans vs }

/-! ### Session clock -/

/-- `if self.start_time is None: self.start_time = now` — sets the origin
only when it is not yet set. -/
def onFirstSample (origin : Option ℚ) (receipt : ℚ) : Option ℚ :=
  some (origin.getD receipt)

/-- `self.start_time = None` — executed on disconnect and on each fresh
connection before its first sample. -/
def resetClock : Option ℚ → Option ℚ := fun _ => none

/-! ### Application state and notification handlers -/

/-- The buffer-relevant state of `MuseDataPlotter`: the session-clock
origin `start_time` and the four per-modality buffer groups. -/
structure AppState where
  startTime : Option ℚ
  eeg : StreamBufs
  acc : StreamBufs
  gyro : StreamBufs
  ppg : StreamBufs
deriving DecidableEq

/-- The state right after `__init__` (all buffers empty, no origin). -/
def initState : AppState :=
  { startTime := none
    eeg := emptyBufs MUSE_CHANNELS.length
    acc := emptyBufs ACC_CHANNELS.length
    gyro := emptyBufs GYRO_CHANNELS.length
    ppg := emptyBufs PPG_CHANNELS.length }

/-- `handle_eeg(self, _, data)` at receipt time `now`: set the clock origin
if unset; if `len(data) >= 20`, decode the four channel values and append
them with timestamp `now - self.start_time`; otherwise leave every buffer
untouched. -/
def handleEEG (st : AppState) (now : ℚ) (data : Frame) : AppState :=
  let start := st.startTime.getD now
  let st' := { st with startTime := onFirstSample st.startTime now }
  if 20 ≤ data.length then
    { st' with eeg := appendFrame st'.eeg (now - start) (decodeEEG data) }
  else st'

/-- `handle_accelerometer(self, _, data)` at receipt time `now`. -/
def handleACC (st : AppState) (now : ℚ) (data : Frame) : AppState :=
  let start := st.startTime.getD now
  let st' := { st with startTime := onFirstSample st.startTime now }
  if 6 ≤ data.length then
    { st' with acc := appendFrame st'.acc (now - start) (decodeACC data) }
  else st'

/-- `handle_gyroscope(self, _, data)` at receipt time `now`. -/
def handleGYRO (st : AppState) (now : ℚ) (data : Frame) : AppState :=
  let start := st.startTime.getD now
  let st' := { st with startTime := onFirstSample st.startTime now }
  if 6 ≤ data.length then
    { st' with gyro := appendFrame st'.gyro (now - start) (decodeGYRO data) }
  else st'

/-- `handle_ppg(self, _, data)` at receipt time `now`. -/
def handlePPG (st : AppState) (now : ℚ) (data : Frame) : AppState :=
  let start := st.startTime.getD now
  let st' := { st with startTime := onFirstSample st.startTime now }
  if 6 ≤ data.length then
    { st' with ppg := appendFrame st'.ppg (now - start) (decodePPG data) }
  else st'

/-- One delivered notification: which modality's handler fires, the receipt
time, and the raw payload. -/
inductive Event where
  | eegFrame (now : ℚ) (data : Frame)
  | accFrame (now : ℚ) (data : Frame)
  | gyroFrame (now : ℚ) (data : Frame)
  | ppgFrame (now : ℚ) (data : Frame)

/-- Dispatch one event to its handler. -/
def stepEvent (st : AppState) (e : Event) : AppState :=
  match e with
  | .eegFrame now d => handleEEG st now d
  | .accFrame now d => handleACC st now d
  | .gyroFrame now d => handleGYRO st now d
  | .ppgFrame now d => handlePPG st now d

/-- Run a sequence of delivered notifications from the initial state. -/
def runEvents (es : List Event) : AppState :=
  es.foldl stepEvent initState

/-- Run a sequence of `append` calls (one timestamp plus one value per
channel each) on the empty buffers of an `n`-channel modality; this is the
buffer trajectory of a handler that receives one decodable frame per call. -/
def appendSeq (n : Nat) (ps : List (ℚ × List ℚ)) : StreamBufs :=
  ps.foldl (fun m p => appendFrame m p.1 p.2) (emptyBufs n)

/-! ### Window query engine (`update_plots` / `update_single_plot`) -/

/-- `visible_indices = [i for i, t in enumerate(times) if visible_start <= t <= visible_end]`. -/
def visibleIndices (times : List ℚ) (lo hi : ℚ) : List Nat :=
  (List.range times.length).filter
    (fun i => decide (lo ≤ times.getD i 0) && decide (times.getD i 0 ≤ hi))

/-- The windowed slice served to one channel's curve by `update_single_plot`:
`visible_start = max(0, current_time - time_window)`, `visible_end =
current_time`, then the timestamp and value lists extracted at the visible
indices (`visible_times`, `visible_data`). -/
def sliceChannel (times vals : List ℚ) (now window : ℚ) : List ℚ × List ℚ :=
  let lo := max 0 (now - window)
  let idxs := visibleIndices times lo now
  (idxs.map (fun i => times.getD i 0), idxs.map (fun i => vals.getD i 0))

/-! ### Connection initialization (`connect_muse`) -/

/-- Externally visible actions of one pass through the initialization body
of `connect_muse`. -/
inductive InitStep where
  | writeControl (cmd : List Nat)
  | sleepSecs (q : ℚ)
  | startNotify (uuid : String)
deriving DecidableEq

/-- `MUSE_EEG_UUID`. -/
def MUSE_EEG_UUID : String := "273e0003-4c4d-454d-96be-f03bac821358"

/-- `MUSE_ACCELEROMETER_UUID`. -/
def MUSE_ACCELEROMETER_UUID : String := "273e000a-4c4d-454d-96be-f03bac821358"

/-- `MUSE_GYROSCOPE_UUID`. -/
def MUSE_GYROSCOPE_UUID : String := "273e0009-4c4d-454d-96be-f03bac821358"

/-- `MUSE_PPG_UUID`. -/
def MUSE_PPG_UUID : String := "273e000f-4c4d-454d-96be-f03bac821358"

/-- The action trace of one (successful) initialization attempt in
`connect_muse` of `muse_direct_vis.py`: stop command, pause, preset
command, pause, the four stream subscriptions, pause, start command,
pause. -/
def initAttemptSteps : List InitStep :=
  [ .writeControl MUSE_STOP_COMMAND, .sleepSecs (1 / 2),
    .writeControl MUSE_PRESET_12, .sleepSecs 1,
    .startNotify MUSE_EEG_UUID, .startNotify MUSE_ACCELEROMETER_UUID,
    .startNotify MUSE_GYROSCOPE_UUID, .startNotify MUSE_PPG_UUID,
    .sleepSecs (1 / 2),
    .writeControl MUSE_START_COMMAND, .sleepSecs (1 / 2) ]

/-- The control-characteristic writes of an action trace, in order. -/
def controlWrites (steps : List InitStep) : List (List Nat) :=
  steps.filterMap (fun s =>
    match s with
    | .writeControl c => some c
    | _ => none)

/-- Connection-level errors (spec §7). -/
inductive LinkError where
  | connectFailed
deriving DecidableEq

/-- The retry loop `for attempt in range(3)` of `connect_muse`: attempt 0
first; a failed attempt falls through to the next; a failure of attempt 2
(`attempt == 2`) re-raises, which the outer handler surfaces as a connect
failure.  `ok k` tells whether attempt `k` raises; the result is the index
of the successful attempt or the surfaced error. -/
def initDevice (ok : Nat → Bool) : Except LinkError Nat :=
  if ok 0 then .ok 0
  else if ok 1 then .ok 1
  else if ok 2 then .ok 2
  else .error .connectFailed

/-! ### Basic lemmas about the codec -/

theorem headD_eq_getD_zero {α : Type _} (l : List α) (d : α) : l.headD d = l.getD 0 d := by
  cases l <;> rfl

theorem pySlice_pair (l : Frame) (s : Nat) (h : s + 2 ≤ l.length) :
    pySlice l s (s + 2) = [l.getD s 0, l.getD (s + 1) 0] := by
  have h1 : s < l.length := by omega
  have h2 : s + 1 < l.length := by omega
  have hs : s + 2 - s = 2 := by omega
  unfold pySlice
  rw [hs, List.drop_eq_getElem_cons h1, List.drop_eq_getElem_cons h2,
    List.getD_eq_getElem _ _ h1, List.getD_eq_getElem _ _ h2]
  rfl

theorem intFromBytesLE_pair (a b : Nat) : intFromBytesLE [a, b] = signed16LE a b := by
  simp only [intFromBytesLE, signed16LE, List.foldr, List.length]
  norm_num

theorem decodeEEG_length (data : Frame) : (decodeEEG data).length = 4 := by
  simp [decodeEEG, MUSE_CHANNELS]

theorem decodeACC_length (data : Frame) : (decodeACC data).length = 3 := by
  simp [decodeACC, ACC_CHANNELS]

theorem decodeGYRO_length (data : Frame) : (decodeGYRO data).length = 3 := by
  simp [decodeGYRO, GYRO_CHANNELS]

theorem decodePPG_length (data : Frame) : (decodePPG data).length = 3 := by
  simp [decodePPG, PPG_CHANNELS]

theorem decodeEEG_getD (data : Frame) (h : 20 ≤ data.length) (i : Nat) (hi : i < 4) :
    (decodeEEG data).getD i 0 =
      (signed16LE (data.getD (i * 5) 0) (data.getD (i * 5 + 1) 0) : ℚ) * (1 / 10) := by
  have hlen : i < (decodeEEG data).length := by rw [decodeEEG_length]; omega
  rw [List.getD_eq_getElem _ _ hlen]
  have hoff : i * 5 + 2 ≤ data.length := by omega
  simp only [decodeEEG, MUSE_CHANNELS, List.length_cons, List.length_nil, List.getElem_map,
    List.getElem_range]
  rw [pySlice_pair data (i * 5) hoff, intFromBytesLE_pair]

theorem decodeACC_getD (data : Frame) (h : 6 ≤ data.length) (i : Nat) (hi : i < 3) :
    (decodeACC data).getD i 0 =
      (signed16LE (data.getD (i * 2) 0) (data.getD (i * 2 + 1) 0) : ℚ) / 16384 := by
  have hlen : i < (decodeACC data).length := by rw [decodeACC_length]; omega
  rw [List.getD_eq_getElem _ _ hlen]
  have hoff : i * 2 + 2 ≤ data.length := by omega
  have he : (i + 1) * 2 = i * 2 + (i * 2 + 2 - i * 2) := by omega
  simp only [decodeACC, ACC_CHANNELS, List.length_cons, List.length_nil, List.getElem_map,
    List.getElem_range, he]
  rw [show i * 2 + (i * 2 + 2 - i * 2) = i * 2 + 2 by omega,
    pySlice_pair data (i * 2) hoff, intFromBytesLE_pair]

theorem decodeGYRO_getD (data : Frame) (h : 6 ≤ data.length) (i : Nat) (hi : i < 3) :
    (decodeGYRO data).getD i 0 =
      (signed16LE (data.getD (i * 2) 0) (data.getD (i * 2 + 1) 0) : ℚ) * (74768 / 10000000) := by
  have hlen : i < (decodeGYRO data).length := by rw [decodeGYRO_length]; omega
  rw [List.getD_eq_getElem _ _ hlen]
  have hoff : i * 2 + 2 ≤ data.length := by omega
  simp only [decodeGYRO, GYRO_CHANNELS, List.length_cons, List.length_nil, List.getElem_map,
    List.getElem_range]
  rw [show (i + 1) * 2 = i * 2 + 2 by omega, pySlice_pair data (i * 2) hoff, intFromBytesLE_pair]

theorem decodePPG_getD (data : Frame) (h : 6 ≤ data.length) (i : Nat) (hi : i < 3) :
    (decodePPG data).getD i 0 =
      (signed16LE (data.getD (i * 2) 0) (data.getD (i * 2 + 1) 0) : ℚ) := by
  have hlen : i < (decodePPG data).length := by rw [decodePPG_length]; omega
  rw [List.getD_eq_getElem _ _ hlen]
  have hoff : i * 2 + 2 ≤ data.length := by omega
  simp only [decodePPG, PPG_CHANNELS, List.length_cons, List.length_nil, List.getElem_map,
    List.getElem_range]
  rw [show (i + 1) * 2 = i * 2 + 2 by omega, pySlice_pair data (i * 2) hoff, intFromBytesLE_pair]

/-- Equality of all four modality buffer groups between two states. -/
def buffersEq (a b : AppState) : Prop :=
  a.eeg = b.eeg ∧ a.acc = b.acc ∧ a.gyro = b.gyro ∧ a.ppg = b.ppg

/-- C3: for every sufficiently long frame, decode yields one value per
declared channel in modality channel order, each value being the
little-endian signed 16-bit integer at the channel's fixed offset (EEG:
first 2 bytes of each 5-byte slot; ACC/GYRO/PPG: consecutive 2-byte
fields), scaled per modality (EEG `* 0.1`, ACC `/ 16384`, GYRO
`* 0.0074768`, PPG unscaled); in particular ACC raw 16384 gives `1` g,
GYRO raw 1 gives `0.0074768` deg/s, and the spec's EEG example decodes
TP9 to `10` µV. -/
theorem decode_fixed_layout_and_scales (dE dS : Frame)
    (hE : 20 ≤ dE.length) (hS : 6 ≤ dS.length) :
    ((decodeEEG dE).length = MUSE_CHANNELS.length ∧
      ∀ i, i < 4 → (decodeEEG dE).getD i 0 =
        (signed16LE (dE.getD (i * 5) 0) (dE.getD (i * 5 + 1) 0) : ℚ) * (1 / 10)) ∧
    ((decodeACC dS).length = ACC_CHANNELS.length ∧
      ∀ i, i < 3 → (decodeACC dS).getD i 0 =
        (signed16LE (dS.getD (i * 2) 0) (dS.getD (i * 2 + 1) 0) : ℚ) / 16384) ∧
    ((decodeGYRO dS).length = GYRO_CHANNELS.length ∧
      ∀ i, i < 3 → (decodeGYRO dS).getD i 0 =
        (signed16LE (dS.getD (i * 2) 0) (dS.getD (i * 2 + 1) 0) : ℚ) * (74768 / 10000000)) ∧
    ((decodePPG dS).length = PPG_CHANNELS.length ∧
      ∀ i, i < 3 → (decodePPG dS).getD i 0 =
        (signed16LE (dS.getD (i * 2) 0) (dS.getD (i * 2 + 1) 0) : ℚ)) ∧
    decodeACC [0x00, 0x40, 0, 0, 0, 0] = [1, 0, 0] ∧
    decodeGYRO [1, 0, 0, 0, 0, 0] = [74768 / 10000000, 0, 0] ∧
    decodeEEG ([0x64, 0x00] ++ List.replicate 18 0) = [10, 0, 0, 0] := by
  refine ⟨⟨by rw [decodeEEG_length]; rfl, fun i hi => decodeEEG_getD dE hE i hi⟩,
    ⟨by rw [decodeACC_length]; rfl, fun i hi => decodeACC_getD dS hS i hi⟩,
    ⟨by rw [decodeGYRO_length]; rfl, fun i hi => decodeGYRO_getD dS hS i hi⟩,
    ⟨by rw [decodePPG_length]; rfl, fun i hi => decodePPG_getD dS hS i hi⟩,
    by simp [decodeACC, ACC_CHANNELS, List.range_succ, pySlice, intFromBytesLE],
    by simp [decodeGYRO, GYRO_CHANNELS, List.range_succ, pySlice, intFromBytesLE],
    by simp [decodeEEG, MUSE_CHANNELS, List.range_succ, pySlice, intFromBytesLE,
        List.replicate]
       norm_num⟩

/-- Witness for C3 at the concrete frames `wE = replicate 20 1` and
`wS = [1,2,3,4,5,6]`. -/
theorem decode_fixed_layout_and_scales_witness :
    (20 ≤ (List.replicate 20 1 : Frame).length ∧ 6 ≤ ([1, 2, 3, 4, 5, 6] : Frame).length) ∧
    (((decodeEEG (List.replicate 20 1)).length = MUSE_CHANNELS.length ∧
      ∀ i, i < 4 → (decodeEEG (List.replicate 20 1)).getD i 0 =
        (signed16LE ((List.replicate 20 1).getD (i * 5) 0)
          ((List.replicate 20 1).getD (i * 5 + 1) 0) : ℚ) * (1 / 10)) ∧
    ((decodeACC [1, 2, 3, 4, 5, 6]).length = ACC_CHANNELS.length ∧
      ∀ i, i < 3 → (decodeACC [1, 2, 3, 4, 5, 6]).getD i 0 =
        (signed16LE (([1, 2, 3, 4, 5, 6] : Frame).getD (i * 2) 0)
          (([1, 2, 3, 4, 5, 6] : Frame).getD (i * 2 + 1) 0) : ℚ) / 16384) ∧
    ((decodeGYRO [1, 2, 3, 4, 5, 6]).length = GYRO_CHANNELS.length ∧
      ∀ i, i < 3 → (decodeGYRO [1, 2, 3, 4, 5, 6]).getD i 0 =
        (signed16LE (([1, 2, 3, 4, 5, 6] : Frame).getD (i * 2) 0)
          (([1, 2, 3, 4, 5, 6] : Frame).getD (i * 2 + 1) 0) : ℚ) * (74768 / 10000000)) ∧
    ((decodePPG [1, 2, 3, 4, 5, 6]).length = PPG_CHANNELS.length ∧
      ∀ i, i < 3 → (decodePPG [1, 2, 3, 4, 5, 6]).getD i 0 =
        (signed16LE (([1, 2, 3, 4, 5, 6] : Frame).getD (i * 2) 0)
          (([1, 2, 3, 4, 5, 6] : Frame).getD (i * 2 + 1) 0) : ℚ)) ∧
    decodeACC [0x00, 0x40, 0, 0, 0, 0] = [1, 0, 0] ∧
    decodeGYRO [1, 0, 0, 0, 0, 0] = [74768 / 10000000, 0, 0] ∧
    decodeEEG ([0x64, 0x00] ++ List.replicate 18 0) = [10, 0, 0, 0]) :=
  ⟨⟨by decide, by decide⟩,
    decode_fixed_layout_and_scales (List.replicate 20 1) [1, 2, 3, 4, 5, 6]
      (by decide) (by decide)⟩

/-- C10: decoding depends only on the fixed prefix of the frame — EEG
frames agreeing at byte offsets 0-1, 5-6, 10-11, 15-16 decode identically,
and ACC/GYRO/PPG frames agreeing on their first 6 bytes decode
identically; trailing bytes are ignored. -/
theorem decode_prefix_only (e1 e2 d1 d2 : Frame)
    (he1 : 20 ≤ e1.length) (he2 : 20 ≤ e2.length)
    (heq : ∀ i, i < 4 → e1.getD (i * 5) 0 = e2.getD (i * 5) 0 ∧
      e1.getD (i * 5 + 1) 0 = e2.getD (i * 5 + 1) 0)
    (hd1 : 6 ≤ d1.length) (hd2 : 6 ≤ d2.length)
    (hdq : ∀ j, j < 6 → d1.getD j 0 = d2.getD j 0) :
    decodeEEG e1 = decodeEEG e2 ∧ decodeACC d1 = decodeACC d2 ∧
    decodeGYRO d1 = decodeGYRO d2 ∧ decodePPG d1 = decodePPG d2 := by
  have hgetD : ∀ (l1 l2 : List ℚ), l1.length = 4 → l2.length = 4 →
      (∀ i, i < 4 → l1.getD i 0 = l2.getD i 0) → l1 = l2 := by
    intro l1 l2 h1 h2 h
    apply List.ext_getElem (by omega)
    intro i hi1 hi2
    have := h i (by omega)
    rwa [List.getD_eq_getElem _ _ hi1, List.getD_eq_getElem _ _ hi2] at this
  have hgetD3 : ∀ (l1 l2 : List ℚ), l1.length = 3 → l2.length = 3 →
      (∀ i, i < 3 → l1.getD i 0 = l2.getD i 0) → l1 = l2 := by
    intro l1 l2 h1 h2 h
    apply List.ext_getElem (by omega)
    intro i hi1 hi2
    have := h i (by omega)
    rwa [List.getD_eq_getElem _ _ hi1, List.getD_eq_getElem _ _ hi2] at this
  refine ⟨?_, ?_, ?_, ?_⟩
  · refine hgetD _ _ (decodeEEG_length e1) (decodeEEG_length e2) (fun i hi => ?_)
    rw [decodeEEG_getD e1 he1 i hi, decodeEEG_getD e2 he2 i hi,
      (heq i hi).1, (heq i hi).2]
  · refine hgetD3 _ _ (decodeACC_length d1) (decodeACC_length d2) (fun i hi => ?_)
    rw [decodeACC_getD d1 hd1 i hi, decodeACC_getD d2 hd2 i hi,
      hdq (i * 2) (by omega), hdq (i * 2 + 1) (by omega)]
  · refine hgetD3 _ _ (decodeGYRO_length d1) (decodeGYRO_length d2) (fun i hi => ?_)
    rw [decodeGYRO_getD d1 hd1 i hi, decodeGYRO_getD d2 hd2 i hi,
      hdq (i * 2) (by omega), hdq (i * 2 + 1) (by omega)]
  · refine hgetD3 _ _ (decodePPG_length d1) (decodePPG_length d2) (fun i hi => ?_)
    rw [decodePPG_getD d1 hd1 i hi, decodePPG_getD d2 hd2 i hi,
      hdq (i * 2) (by omega), hdq (i * 2 + 1) (by omega)]

/-- Witness for C10: two EEG frames differing only at ignored offsets
(byte 2 and a trailing byte) and two short-modality frames differing only
past byte 6 decode identically. -/
theorem decode_prefix_only_witness :
    (20 ≤ (List.replicate 20 0 : Frame).length ∧
      20 ≤ (([0, 0, 9] ++ List.replicate 17 0 ++ [7] : Frame)).length ∧
      (∀ i, i < 4 → (List.replicate 20 0 : Frame).getD (i * 5) 0 =
          ([0, 0, 9] ++ List.replicate 17 0 ++ [7] : Frame).getD (i * 5) 0 ∧
        (List.replicate 20 0 : Frame).getD (i * 5 + 1) 0 =
          ([0, 0, 9] ++ List.replicate 17 0 ++ [7] : Frame).getD (i * 5 + 1) 0) ∧
      6 ≤ ([1, 2, 3, 4, 5, 6] : Frame).length ∧
      6 ≤ ([1, 2, 3, 4, 5, 6, 99] : Frame).length ∧
      (∀ j, j < 6 → ([1, 2, 3, 4, 5, 6] : Frame).getD j 0 =
        ([1, 2, 3, 4, 5, 6, 99] : Frame).getD j 0)) ∧
    (decodeEEG (List.replicate 20 0) = decodeEEG ([0, 0, 9] ++ List.replicate 17 0 ++ [7]) ∧
      decodeACC [1, 2, 3, 4, 5, 6] = decodeACC [1, 2, 3, 4, 5, 6, 99] ∧
      decodeGYRO [1, 2, 3, 4, 5, 6] = decodeGYRO [1, 2, 3, 4, 5, 6, 99] ∧
      decodePPG [1, 2, 3, 4, 5, 6] = decodePPG [1, 2, 3, 4, 5, 6, 99]) :=
  ⟨⟨by decide, by decide, by decide, by decide, by decide, by decide⟩,
    decode_prefix_only (List.replicate 20 0) ([0, 0, 9] ++ List.replicate 17 0 ++ [7])
      [1, 2, 3, 4, 5, 6] [1, 2, 3, 4, 5, 6, 99]
      (by decide) (by decide) (by decide) (by decide) (by decide) (by decide)⟩

/-- C4: a frame shorter than the modality's minimum length (EEG 20,
ACC/GYRO/PPG 6) is a `TruncatedFrame` decode error and its handler leaves
every channel buffer and every shared timestamp buffer unchanged. -/
theorem truncated_frame_no_state_change (st : AppState) (now : ℚ) (dE dS : Frame)
    (hE : dE.length < 20) (hS : dS.length < 6) :
    decodeEEGChecked dE = .error .truncatedFrame ∧
    decodeACCChecked dS = .error .truncatedFrame ∧
    decodeGYROChecked dS = .error .truncatedFrame ∧
    decodePPGChecked dS = .error .truncatedFrame ∧
    buffersEq (handleEEG st now dE) st ∧
    buffersEq (handleACC st now dS) st ∧
    buffersEq (handleGYRO st now dS) st ∧
    buffersEq (handlePPG st now dS) st := by
  have hE' : ¬ 20 ≤ dE.length := by omega
  have hS' : ¬ 6 ≤ dS.length := by omega
  refine ⟨?_, ?_, ?_, ?_, ?_, ?_, ?_, ?_⟩
  · simp [decodeEEGChecked, decodeChecked, hE']
  · simp [decodeACCChecked, decodeChecked, hS']
  · simp [decodeGYROChecked, decodeChecked, hS']
  · simp [decodePPGChecked, decodeChecked, hS']
  · simp [buffersEq, handleEEG, hE']
  · simp [buffersEq, handleACC, hS']
  · simp [buffersEq, handleGYRO, hS']
  · simp [buffersEq, handlePPG, hS']

/-- Witness for C4 at the spec's 4-byte EEG payload and a 2-byte short
frame, from the initial state. -/
theorem truncated_frame_no_state_change_witness :
    (([0, 0, 0, 0] : Frame).length < 20 ∧ ([0, 0] : Frame).length < 6) ∧
    (decodeEEGChecked [0, 0, 0, 0] = .error .truncatedFrame ∧
      decodeACCChecked [0, 0] = .error .truncatedFrame ∧
      decodeGYROChecked [0, 0] = .error .truncatedFrame ∧
      decodePPGChecked [0, 0] = .error .truncatedFrame ∧
      buffersEq (handleEEG initState 0 [0, 0, 0, 0]) initState ∧
      buffersEq (handleACC initState 0 [0, 0]) initState ∧
      buffersEq (handleGYRO initState 0 [0, 0]) initState ∧
      buffersEq (handlePPG initState 0 [0, 0]) initState) :=
  ⟨⟨by decide, by decide⟩,
    truncated_frame_no_state_change initState 0 [0, 0, 0, 0] [0, 0] (by decide) (by decide)⟩

/-- C9: a handler mutates only its own modality's buffers: for every frame
delivered to one modality's handler, the channel buffers and timestamp
buffers of the other three modalities are unchanged. -/
theorem handler_touches_only_own_modality (st : AppState) (now : ℚ) (data : Frame) :
    ((handleEEG st now data).acc = st.acc ∧ (handleEEG st now data).gyro = st.gyro ∧
      (handleEEG st now data).ppg = st.ppg) ∧
    ((handleACC st now data).eeg = st.eeg ∧ (handleACC st now data).gyro = st.gyro ∧
      (handleACC st now data).ppg = st.ppg) ∧
    ((handleGYRO st now data).eeg = st.eeg ∧ (handleGYRO st now data).acc = st.acc ∧
      (handleGYRO st now data).ppg = st.ppg) ∧
    ((handlePPG st now data).eeg = st.eeg ∧ (handlePPG st now data).acc = st.acc ∧
      (handlePPG st now data).gyro = st.gyro) := by
  refine ⟨⟨?_, ?_, ?_⟩, ⟨?_, ?_, ?_⟩, ⟨?_, ?_, ?_⟩, ⟨?_, ?_, ?_⟩⟩ <;>
    · simp only [handleEEG, handleACC, handleGYRO, handlePPG]
      split <;> rfl

/-- C6: the session clock origin is set exactly once, at the first sample
after a connect: the first `on_first_sample` sets the origin, later calls
are no-ops until reset, every stored timestamp is `receipt_time - origin`,
and after a reset the first stored timestamp is `0` again. -/
theorem session_clock_origin (o now nowN r rN : ℚ) (st stN : AppState) (data : Frame)
    (hdata : 20 ≤ data.length) (hst : st.startTime = some o) (hstN : stN.startTime = none) :
    onFirstSample none r = some r ∧
    onFirstSample (some o) rN = some o ∧
    resetClock (some o) = none ∧
    onFirstSample (resetClock (some o)) rN = some rN ∧
    (handleEEG st now data).startTime = some o ∧
    (handleEEG st now data).eeg.times.getLast? = some (now - o) ∧
    (handleEEG stN nowN data).startTime = some nowN ∧
    (handleEEG stN nowN data).eeg.times.getLast? = some 0 := by
  refine ⟨rfl, rfl, rfl, rfl, ?_, ?_, ?_, ?_⟩
  · simp only [handleEEG, hst, onFirstSample, Option.getD_some]
    rw [if_pos hdata]
  · simp only [handleEEG, hst, onFirstSample, Option.getD_some]
    rw [if_pos hdata]
    simp [appendFrame]
  · simp only [handleEEG, hstN, onFirstSample, Option.getD_none]
    rw [if_pos hdata]
  · simp only [handleEEG, hstN, onFirstSample, Option.getD_none]
    rw [if_pos hdata]
    simp [appendFrame]

/-- Witness for C6: origin 5, receipt times 7 (established session) and 3
(fresh session), on 20-byte frames. -/
theorem session_clock_origin_witness :
    (20 ≤ (List.replicate 20 0 : Frame).length ∧
      ({ initState with startTime := some 5 } : AppState).startTime = some 5 ∧
      initState.startTime = none) ∧
    (onFirstSample none 2 = some 2 ∧
      onFirstSample (some 5) 9 = some 5 ∧
      resetClock (some 5) = none ∧
      onFirstSample (resetClock (some 5)) 9 = some 9 ∧
      (handleEEG { initState with startTime := some 5 } 7 (List.replicate 20 0)).startTime =
        some 5 ∧
      (handleEEG { initState with startTime := some 5 } 7
        (List.replicate 20 0)).eeg.times.getLast? = some (7 - 5) ∧
      (handleEEG initState 3 (List.replicate 20 0)).startTime = some 3 ∧
      (handleEEG initState 3 (List.replicate 20 0)).eeg.times.getLast? = some 0) :=
  ⟨⟨by decide, rfl, rfl⟩,
    session_clock_origin 5 7 3 2 9 { initState with startTime := some 5 } initState
      (List.replicate 20 0) (by decide) rfl rfl⟩

/-! ### Window query lemmas -/

theorem visibleIndices_mem (times : List ℚ) (lo hi : ℚ) (i : Nat) :
    i ∈ visibleIndices times lo hi ↔
      i < times.length ∧ lo ≤ times.getD i 0 ∧ times.getD i 0 ≤ hi := by
  simp [visibleIndices, List.mem_filter, List.mem_range, and_assoc]

/-- C5: for monotone timestamps, `update_single_plot` selects exactly the
indices whose timestamp lies in `[max 0 (now - window), now]` (both ends
inclusive, a contiguous run) and serves, per channel, timestamp and value
slices aligned index-for-index; in particular timestamps `[0..5]` with
`window = 2` at `now = 5` yield the samples at timestamps `[3, 4, 5]`. -/
theorem window_slice_selection (times vals : List ℚ) (now window : ℚ)
    (hmono : times.Sorted (· ≤ ·)) :
    (∀ i, i ∈ visibleIndices times (max 0 (now - window)) now ↔
        i < times.length ∧ max 0 (now - window) ≤ times.getD i 0 ∧ times.getD i 0 ≤ now) ∧
    (∀ i k j, i ∈ visibleIndices times (max 0 (now - window)) now →
        j ∈ visibleIndices times (max 0 (now - window)) now →
        i ≤ k → k ≤ j → k ∈ visibleIndices times (max 0 (now - window)) now) ∧
    (sliceChannel times vals now window).1 =
      (visibleIndices times (max 0 (now - window)) now).map (fun i => times.getD i 0) ∧
    (sliceChannel times vals now window).2 =
      (visibleIndices times (max 0 (now - window)) now).map (fun i => vals.getD i 0) ∧
    (sliceChannel times vals now window).1.length =
      (sliceChannel times vals now window).2.length ∧
    sliceChannel [0, 1, 2, 3, 4, 5] [10, 11, 12, 13, 14, 15] 5 2 = ([3, 4, 5], [13, 14, 15]) := by
  have hacc : ∀ a b : Nat, a < b → b < times.length →
      times.getD a 0 ≤ times.getD b 0 := by
    intro a b hab hb
    rw [List.getD_eq_getElem _ _ (by omega), List.getD_eq_getElem _ _ hb]
    exact List.pairwise_iff_getElem.mp hmono a b (by omega) hb hab
  refine ⟨fun i => visibleIndices_mem times _ now i, ?_, rfl, rfl, by simp [sliceChannel], ?_⟩
  · intro i k j hi hj hik hkj
    rw [visibleIndices_mem] at hi hj ⊢
    obtain ⟨hilt, hilo, -⟩ := hi
    obtain ⟨hjlt, -, hjhi⟩ := hj
    have hklt : k < times.length := by omega
    refine ⟨hklt, ?_, ?_⟩
    · rcases Nat.eq_or_lt_of_le hik with rfl | hik'
      · exact hilo
      · exact le_trans hilo (hacc i k hik' hklt)
    · rcases Nat.eq_or_lt_of_le hkj with rfl | hkj'
      · exact hjhi
      · exact le_trans (hacc k j hkj' hjlt) hjhi
  · simp [sliceChannel, visibleIndices, List.range_succ]
    norm_num

/-- Witness for C5 at timestamps `[0..5]`, values `[10..15]`, `now = 5`,
`window = 2`: the selected indices are `[3, 4, 5]`. -/
theorem window_slice_selection_witness :
    ([0, 1, 2, 3, 4, 5] : List ℚ).Sorted (· ≤ ·) ∧
    visibleIndices [0, 1, 2, 3, 4, 5] (max 0 ((5 : ℚ) - 2)) 5 = [3, 4, 5] ∧
    sliceChannel [0, 1, 2, 3, 4, 5] [10, 11, 12, 13, 14, 15] 5 2 = ([3, 4, 5], [13, 14, 15]) := by
  have hs : ([0, 1, 2, 3, 4, 5] : List ℚ).Sorted (· ≤ ·) := by
    simp [List.Sorted]
    norm_num
  refine ⟨hs, ?_,
    (window_slice_selection [0, 1, 2, 3, 4, 5] [10, 11, 12, 13, 14, 15] 5 2 hs).2.2.2.2.2⟩
  simp [visibleIndices, List.range_succ]
  norm_num

/-- C7: on a modality with zero buffered samples, and for any query window
containing none of the buffered timestamps, the served slice is empty for
every channel and no error is raised. -/
theorem empty_window_slice (vals : List ℚ) (now window : ℚ) :
    sliceChannel [] vals now window = ([], []) ∧
    (∀ times : List ℚ,
      (∀ i, i < times.length →
        ¬ (max 0 (now - window) ≤ times.getD i 0 ∧ times.getD i 0 ≤ now)) →
      sliceChannel times vals now window = ([], [])) := by
  refine ⟨rfl, fun times h => ?_⟩
  have hvi : visibleIndices times (max 0 (now - window)) now = [] := by
    unfold visibleIndices
    rw [List.filter_eq_nil_iff]
    intro a ha
    rw [List.mem_range] at ha
    simp only [Bool.and_eq_true, decide_eq_true_eq, not_and]
    intro hlo hhi
    exact h a ha ⟨hlo, hhi⟩
  simp [sliceChannel, hvi]

/-- Witness for C7: the empty modality, and a one-sample modality whose
sample lies outside the window. -/
theorem empty_window_slice_witness :
    sliceChannel [] ([] : List ℚ) 0 1 = ([], []) ∧
    sliceChannel [5] ([] : List ℚ) 0 1 = ([], []) :=
  ⟨(empty_window_slice [] 0 1).1,
    (empty_window_slice [] 0 1).2 [5] (by
      intro i hi
      simp only [List.length_singleton] at hi
      interval_cases i
      simp only [List.getD_cons_zero]
      norm_num)⟩

/-- C8: on connect the three control commands are written in the order
STOP, SET_PRESET, START; the initialization is attempted at most 3 times,
and a fatal connect error is surfaced iff all 3 attempts fail. -/
theorem connect_control_order_and_retry (ok : Nat → Bool) :
    controlWrites initAttemptSteps = [MUSE_STOP_COMMAND, MUSE_PRESET_12, MUSE_START_COMMAND] ∧
    (initDevice ok = .error .connectFailed ↔
      (ok 0 = false ∧ ok 1 = false ∧ ok 2 = false)) ∧
    (initDevice ok = .error .connectFailed ∨ ∃ k, k < 3 ∧ initDevice ok = .ok k) := by
  refine ⟨rfl, ?_, ?_⟩ <;>
    cases h0 : ok 0 <;> cases h1 : ok 1 <;> cases h2 : ok 2 <;>
      simp [initDevice, h0, h1, h2]

/-- Witness for C8 with every attempt failing: the error is surfaced. -/
theorem connect_control_order_and_retry_witness :
    controlWrites initAttemptSteps = [MUSE_STOP_COMMAND, MUSE_PRESET_12, MUSE_START_COMMAND] ∧
    (initDevice (fun _ => false) = .error .connectFailed ↔
      ((fun _ => false : Nat → Bool) 0 = false ∧ (fun _ => false : Nat → Bool) 1 = false ∧
        (fun _ => false : Nat → Bool) 2 = false)) ∧
    (initDevice (fun _ => false) = .error .connectFailed ∨
      ∃ k, k < 3 ∧ initDevice (fun _ => false) = .ok k) :=
  connect_control_order_and_retry (fun _ => false)

/-! ### Buffer invariant lemmas -/

theorem pushEvict_length (buf : List ℚ) (v : ℚ) :
    (pushEvict buf v).length = if 500 < buf.length then buf.length else buf.length + 1 := by
  unfold pushEvict
  split <;> simp_all
  omega

/-- Well-formedness of one modality's buffers: `n` channels, all channel
buffers in lockstep with the shared timestamp list, and at most 501
entries (the steady-state bound the handlers actually maintain). -/
def BufsWF (n : Nat) (m : StreamBufs) : Prop :=
  m.chans.length = n ∧ (∀ c ∈ m.chans, c.length = m.times.length) ∧ m.times.length ≤ 501

theorem getD_zipWith_pushEvict (cs : List (List ℚ)) (vs : List ℚ) (i : Nat)
    (hc : i < cs.length) (hv : i < vs.length) :
    (List.zipWith pushEvict cs vs).getD i [] = pushEvict (cs.getD i []) (vs.getD i 0) := by
  rw [List.getD_eq_getElem _ _ (by rw [List.length_zipWith]; omega),
    List.getElem_zipWith, List.getD_eq_getElem _ _ hc, List.getD_eq_getElem _ _ hv]

theorem BufsWF_emptyBufs (n : Nat) : BufsWF n (emptyBufs n) := by
  refine ⟨by simp [emptyBufs], fun c hc => ?_, by simp [emptyBufs]⟩
  simp only [emptyBufs, List.eq_of_mem_replicate hc]

theorem BufsWF_appendFrame {n : Nat} (hn : 0 < n) (t : ℚ) {m : StreamBufs} {vs : List ℚ}
    (h : BufsWF n m) (hvs : vs.length = n) : BufsWF n (appendFrame m t vs) := by
  obtain ⟨hlen, hlock, hbound⟩ := h
  have hne : m.chans ≠ [] := by
    intro hcon
    rw [hcon] at hlen
    simp at hlen
    omega
  have hhead : (m.chans.headD []).length = m.times.length := by
    cases hc : m.chans with
    | nil => exact absurd hc hne
    | cons c cs =>
      simp only [List.headD_cons]
      exact hlock c (by rw [hc]; exact List.mem_cons_self c cs)
  have htlen : (appendFrame m t vs).times.length =
      if 500 < m.times.length then m.times.length else m.times.length + 1 := by
    simp only [appendFrame, hhead, List.length_append]
    split <;> simp
    omega
  refine ⟨?_, fun c hc => ?_, ?_⟩
  · simp only [appendFrame, List.length_zipWith, hlen, hvs]
    omega
  · rw [List.mem_iff_getElem] at hc
    obtain ⟨i, hi, rfl⟩ := hc
    have hi' : i < m.chans.length := by
      simp only [appendFrame, List.length_zipWith, hlen, hvs] at hi
      omega
    have hiv : i < vs.length := by omega
    have hgz : (appendFrame m t vs).chans.getD i [] =
        pushEvict (m.chans.getD i []) (vs.getD i 0) := by
      simp only [appendFrame]
      exact getD_zipWith_pushEvict m.chans vs i hi' hiv
    have hcl : (m.chans.getD i []).length = m.times.length := by
      rw [List.getD_eq_getElem _ _ hi']
      exact hlock _ (List.getElem_mem hi')
    rw [← List.getD_eq_getElem ((appendFrame m t vs).chans) [] hi, hgz,
      pushEvict_length, htlen, hcl]
  · rw [htlen]
    split <;> omega

/-- Well-formedness of the whole application state. -/
def StateWF (st : AppState) : Prop :=
  BufsWF 4 st.eeg ∧ BufsWF 3 st.acc ∧ BufsWF 3 st.gyro ∧ BufsWF 3 st.ppg

theorem StateWF_initState : StateWF initState :=
  ⟨BufsWF_emptyBufs 4, BufsWF_emptyBufs 3, BufsWF_emptyBufs 3, BufsWF_emptyBufs 3⟩

theorem StateWF_step (st : AppState) (e : Event) (h : StateWF st) :
    StateWF (stepEvent st e) := by
  obtain ⟨he, ha, hg, hp⟩ := h
  cases e with
  | eegFrame now d =>
    simp only [stepEvent, handleEEG]
    split
    · exact ⟨BufsWF_appendFrame (by omega) _ he (decodeEEG_length d), ha, hg, hp⟩
    · exact ⟨he, ha, hg, hp⟩
  | accFrame now d =>
    simp only [stepEvent, handleACC]
    split
    · exact ⟨he, BufsWF_appendFrame (by omega) _ ha (decodeACC_length d), hg, hp⟩
    · exact ⟨he, ha, hg, hp⟩
  | gyroFrame now d =>
    simp only [stepEvent, handleGYRO]
    split
    · exact ⟨he, ha, BufsWF_appendFrame (by omega) _ hg (decodeGYRO_length d), hp⟩
    · exact ⟨he, ha, hg, hp⟩
  | ppgFrame now d =>
    simp only [stepEvent, handlePPG]
    split
    · exact ⟨he, ha, hg, BufsWF_appendFrame (by omega) _ hp (decodePPG_length d)⟩
    · exact ⟨he, ha, hg, hp⟩

theorem StateWF_foldl (es : List Event) : ∀ st, StateWF st → StateWF (es.foldl stepEvent st) := by
  induction es with
  | nil => exact fun st h => h
  | cons e es ih => exact fun st h => ih _ (StateWF_step st e h)

/-- C1 (amended): after any sequence of handled frames, within each
modality every channel buffer's length equals the shared timestamp
buffer's length, and that common length never exceeds 501 (`capacity + 1`:
the handlers evict only when a buffer already exceeds 500 entries before
the append). -/
theorem lockstep_invariant_after_any_events (es : List Event) :
    ((runEvents es).eeg.chans.length = 4 ∧
      (∀ c ∈ (runEvents es).eeg.chans, c.length = (runEvents es).eeg.times.length) ∧
      (runEvents es).eeg.times.length ≤ 501) ∧
    ((runEvents es).acc.chans.length = 3 ∧
      (∀ c ∈ (runEvents es).acc.chans, c.length = (runEvents es).acc.times.length) ∧
      (runEvents es).acc.times.length ≤ 501) ∧
    ((runEvents es).gyro.chans.length = 3 ∧
      (∀ c ∈ (runEvents es).gyro.chans, c.length = (runEvents es).gyro.times.length) ∧
      (runEvents es).gyro.times.length ≤ 501) ∧
    ((runEvents es).ppg.chans.length = 3 ∧
      (∀ c ∈ (runEvents es).ppg.chans, c.length = (runEvents es).ppg.times.length) ∧
      (runEvents es).ppg.times.length ≤ 501) :=
  StateWF_foldl es initState StateWF_initState

/-- Witness for C1 (amended) after one EEG frame. -/
theorem lockstep_invariant_after_any_events_witness :
    ((runEvents [Event.eegFrame 0 (List.replicate 20 0)]).eeg.chans.length = 4 ∧
      (∀ c ∈ (runEvents [Event.eegFrame 0 (List.replicate 20 0)]).eeg.chans,
        c.length = (runEvents [Event.eegFrame 0 (List.replicate 20 0)]).eeg.times.length) ∧
      (runEvents [Event.eegFrame 0 (List.replicate 20 0)]).eeg.times.length ≤ 501) ∧
    ((runEvents [Event.eegFrame 0 (List.replicate 20 0)]).acc.chans.length = 3 ∧
      (∀ c ∈ (runEvents [Event.eegFrame 0 (List.replicate 20 0)]).acc.chans,
        c.length = (runEvents [Event.eegFrame 0 (List.replicate 20 0)]).acc.times.length) ∧
      (runEvents [Event.eegFrame 0 (List.replicate 20 0)]).acc.times.length ≤ 501) ∧
    ((runEvents [Event.eegFrame 0 (List.replicate 20 0)]).gyro.chans.length = 3 ∧
      (∀ c ∈ (runEvents [Event.eegFrame 0 (List.replicate 20 0)]).gyro.chans,
        c.length = (runEvents [Event.eegFrame 0 (List.replicate 20 0)]).gyro.times.length) ∧
      (runEvents [Event.eegFrame 0 (List.replicate 20 0)]).gyro.times.length ≤ 501) ∧
    ((runEvents [Event.eegFrame 0 (List.replicate 20 0)]).ppg.chans.length = 3 ∧
      (∀ c ∈ (runEvents [Event.eegFrame 0 (List.replicate 20 0)]).ppg.chans,
        c.length = (runEvents [Event.eegFrame 0 (List.replicate 20 0)]).ppg.times.length) ∧
      (runEvents [Event.eegFrame 0 (List.replicate 20 0)]).ppg.times.length ≤ 501) :=
  lockstep_invariant_after_any_events [Event.eegFrame 0 (List.replicate 20 0)]

/-! ### Closed-form content of the buffers under repeated appends -/

theorem drop_push {α : Type _} (l l' : List α) (k : Nat) (hk : l.length = k)
    (hk' : l'.length = k) (a : α) :
    (if 500 < (l'.drop (k - 501)).length then (l.drop (k - 501)).drop 1
      else l.drop (k - 501)) ++ [a] = (l ++ [a]).drop ((k + 1) - 501) := by
  have hcond : (500 < (l'.drop (k - 501)).length) ↔ 501 ≤ k := by
    rw [List.length_drop, hk']
    omega
  by_cases h : 501 ≤ k
  · rw [if_pos (hcond.mpr h), List.drop_drop,
      List.drop_append_of_le_length (show (k + 1) - 501 ≤ l.length by omega),
      show (k - 501) + 1 = (k + 1) - 501 from by omega]
  · rw [if_neg (fun hc => h (hcond.mp hc)),
      List.drop_append_of_le_length (show (k + 1) - 501 ≤ l.length by omega),
      show k - 501 = (k + 1) - 501 from by omega]

/-- FIFO content of the buffers: a sequence of `append` calls on an
initially empty `n`-channel modality leaves exactly the last
`min (length) 501` samples, in original arrival order, in the shared
timestamp list and in every channel buffer. -/
theorem appendSeq_content (n : Nat) (hn : 0 < n) :
    ∀ ps : List (ℚ × List ℚ), (∀ p ∈ ps, p.2.length = n) →
    (appendSeq n ps).times = (ps.map Prod.fst).drop (ps.length - 501) ∧
    (appendSeq n ps).chans.length = n ∧
    ∀ i, i < n → (appendSeq n ps).chans.getD i [] =
      (ps.map (fun p => p.2.getD i 0)).drop (ps.length - 501) := by
  intro ps
  induction ps using List.reverseRecOn with
  | nil =>
    intro _
    refine ⟨rfl, by simp [appendSeq, emptyBufs], fun i hi => ?_⟩
    show (List.replicate n ([] : List ℚ)).getD i [] = _
    rw [List.getD_eq_getElem _ _ (by rw [List.length_replicate]; omega)]
    simp
  | append_singleton ps p ih =>
    intro hps
    have hps' : ∀ q ∈ ps, q.2.length = n := fun q hq => hps q (List.mem_append_left _ hq)
    have hp2 : p.2.length = n := hps p (List.mem_append_right _ (List.mem_singleton_self p))
    obtain ⟨iht, ihl, ihc⟩ := ih hps'
    have happ : appendSeq n (ps ++ [p]) = appendFrame (appendSeq n ps) p.1 p.2 := by
      simp [appendSeq, List.foldl_append]
    have hhead : (appendSeq n ps).chans.headD [] =
        (ps.map (fun q => q.2.getD 0 0)).drop (ps.length - 501) := by
      rw [headD_eq_getD_zero]
      exact ihc 0 hn
    refine ⟨?_, ?_, fun i hi => ?_⟩
    · rw [happ]
      simp only [appendFrame]
      rw [hhead, iht, List.map_append, List.length_append]
      simp only [List.map_cons, List.map_nil, List.length_singleton]
      exact drop_push _ _ ps.length (by simp) (by simp) p.1
    · rw [happ]
      simp only [appendFrame, List.length_zipWith, ihl, hp2]
      omega
    · rw [happ]
      simp only [appendFrame]
      rw [getD_zipWith_pushEvict _ _ i (by rw [ihl]; omega) (by rw [hp2]; omega),
        ihc i hi]
      unfold pushEvict
      rw [List.map_append, List.length_append]
      simp only [List.map_cons, List.map_nil, List.length_singleton]
      exact drop_push _ _ ps.length (by simp) (by simp) _

/-! ### A concrete stream of EEG frames -/

/-- A 20-byte all-zero EEG frame. -/
def zeroFrame20 : Frame := List.replicate 20 0

/-- `m` EEG notifications, the `k`-th received at time `k`. -/
def eegStream (m : Nat) : List Event :=
  (List.range m).map (fun k : ℕ => Event.eegFrame (k : ℚ) zeroFrame20)

theorem decodeEEG_zeroFrame20 : decodeEEG zeroFrame20 = List.replicate 4 0 := by
  simp [decodeEEG, zeroFrame20, MUSE_CHANNELS, List.range_succ, pySlice, intFromBytesLE,
    List.replicate]

theorem runEvents_eegStream (m : Nat) :
    (runEvents (eegStream m)).startTime = (if m = 0 then none else some 0) ∧
    (runEvents (eegStream m)).eeg =
      appendSeq 4 ((List.range m).map (fun k : ℕ => ((k : ℚ), List.replicate 4 0))) := by
  induction m with
  | zero => exact ⟨rfl, rfl⟩
  | succ m ih =>
    obtain ⟨ihs, ihe⟩ := ih
    have hstep : runEvents (eegStream (m + 1)) =
        handleEEG (runEvents (eegStream m)) (m : ℚ) zeroFrame20 := by
      simp [runEvents, eegStream, List.range_succ, stepEvent]
    have hguard : 20 ≤ zeroFrame20.length := by decide
    have hstart : (runEvents (eegStream m)).startTime.getD (m : ℚ) = 0 := by
      rw [ihs]
      by_cases hm : m = 0
      · subst hm
        simp
      · simp [hm]
    have htarget : (List.range (m + 1)).map (fun k : ℕ => ((k : ℚ), List.replicate 4 (0 : ℚ))) =
        (List.range m).map (fun k : ℕ => ((k : ℚ), List.replicate 4 0)) ++
          [((m : ℚ), List.replicate 4 0)] := by
      rw [List.range_succ, List.map_append]
      rfl
    constructor
    · rw [hstep]
      simp only [handleEEG, onFirstSample]
      rw [if_pos hguard]
      simp [hstart]
    · rw [hstep]
      simp only [handleEEG, onFirstSample]
      rw [if_pos hguard]
      rw [htarget]
      simp only [appendSeq, List.foldl_append, List.foldl_cons, List.foldl_nil]
      show appendFrame (runEvents (eegStream m)).eeg
          ((m : ℚ) - (runEvents (eegStream m)).startTime.getD (m : ℚ))
          (decodeEEG zeroFrame20) = _
      rw [hstart, decodeEEG_zeroFrame20, sub_zero, ihe]
      rfl

/-- C1 counterexample: 501 handled EEG frames from the initial state leave
501 entries in the shared timestamp buffer and in every channel buffer —
the common length exceeds the claimed capacity bound of 500. -/
theorem capacity_bound_500_counterexample :
    (runEvents (eegStream 501)).eeg.times.length = 501 ∧
    (∀ c ∈ (runEvents (eegStream 501)).eeg.chans, c.length = 501) ∧
    ¬ ((runEvents (eegStream 501)).eeg.times.length ≤ 500) := by
  have hps : ∀ p ∈ (List.range 501).map (fun k : ℕ => ((k : ℚ), List.replicate 4 (0 : ℚ))),
      p.2.length = 4 := by
    intro p hp
    rw [List.mem_map] at hp
    obtain ⟨k, -, rfl⟩ := hp
    simp
  obtain ⟨ht, hl, hc⟩ := appendSeq_content 4 (by omega) _ hps
  obtain ⟨-, he⟩ := runEvents_eegStream 501
  rw [he]
  have htl : (appendSeq 4 ((List.range 501).map
      (fun k : ℕ => ((k : ℚ), List.replicate 4 (0 : ℚ))))).times.length = 501 := by
    rw [ht]
    simp
  refine ⟨htl, fun c hcm => ?_, by omega⟩
  rw [List.mem_iff_getElem] at hcm
  obtain ⟨i, hi, rfl⟩ := hcm
  have hi4 : i < 4 := by
    rw [hl] at hi
    exact hi
  rw [← List.getD_eq_getElem _ [] hi, hc i hi4]
  simp

/-- C2 counterexample: after appending `capacity + 1 = 501` samples to the
initially empty EEG modality, no eviction has happened — all 501 samples
remain (not the last 500), and the oldest sample (timestamp 0) is still at
index 0 of the shared timestamp buffer. -/
theorem eviction_at_501_counterexample :
    (runEvents (eegStream 501)).eeg.times.length = 501 ∧
    (runEvents (eegStream 501)).eeg.times.getD 0 0 = 0 := by
  have hps : ∀ p ∈ (List.range 501).map (fun k : ℕ => ((k : ℚ), List.replicate 4 (0 : ℚ))),
      p.2.length = 4 := by
    intro p hp
    rw [List.mem_map] at hp
    obtain ⟨k, -, rfl⟩ := hp
    simp
  obtain ⟨ht, -, -⟩ := appendSeq_content 4 (by omega) _ hps
  obtain ⟨-, he⟩ := runEvents_eegStream 501
  have htimes : (runEvents (eegStream 501)).eeg.times =
      (List.range 501).map (fun k : ℕ => (k : ℚ)) := by
    rw [he, ht]
    simp [List.map_map, Function.comp]
  rw [htimes]
  refine ⟨by simp, ?_⟩
  rw [List.getD_eq_getElem _ _ (by simp)]
  simp

/-- C2 (amended): appending `capacity + 2 = 502` samples to an initially
empty modality leaves each channel buffer and the shared timestamp buffer
containing exactly the last 501 samples in original arrival order — each
overflow (a buffer already longer than 500 before the append) evicts
exactly the oldest entry (index 0) from the timestamp sequence and from
every channel buffer. -/
theorem eviction_order_fifo (ps : List (ℚ × List ℚ)) (hlen : ps.length = 502)
    (hvs : ∀ p ∈ ps, p.2.length = 4) :
    (appendSeq 4 ps).times = (ps.map Prod.fst).drop 1 ∧
    ∀ i, i < 4 → (appendSeq 4 ps).chans.getD i [] =
      (ps.map (fun p => p.2.getD i 0)).drop 1 := by
  obtain ⟨ht, -, hc⟩ := appendSeq_content 4 (by omega) ps hvs
  rw [hlen] at ht hc
  exact ⟨ht, hc⟩

/-- Witness for C2 (amended) on 502 concrete samples. -/
theorem eviction_order_fifo_witness :
    (((List.range 502).map (fun k : ℕ => ((k : ℚ), List.replicate 4 (k : ℚ)))).length = 502 ∧
      (∀ p ∈ (List.range 502).map (fun k : ℕ => ((k : ℚ), List.replicate 4 (k : ℚ))),
        p.2.length = 4)) ∧
    ((appendSeq 4 ((List.range 502).map (fun k : ℕ => ((k : ℚ), List.replicate 4 (k : ℚ))))).times =
      (((List.range 502).map (fun k : ℕ => ((k : ℚ), List.replicate 4 (k : ℚ)))).map
        Prod.fst).drop 1 ∧
    ∀ i, i < 4 →
      (appendSeq 4 ((List.range 502).map
        (fun k : ℕ => ((k : ℚ), List.replicate 4 (k : ℚ))))).chans.getD i [] =
      (((List.range 502).map (fun k : ℕ => ((k : ℚ), List.replicate 4 (k : ℚ)))).map
        (fun p => p.2.getD i 0)).drop 1) := by
  have hlen : ((List.range 502).map
      (fun k : ℕ => ((k : ℚ), List.replicate 4 (k : ℚ)))).length = 502 := by simp
  have hvs : ∀ p ∈ (List.range 502).map (fun k : ℕ => ((k : ℚ), List.replicate 4 (k : ℚ))),
      p.2.length = 4 := by
    intro p hp
    rw [List.mem_map] at hp
    obtain ⟨k, -, rfl⟩ := hp
    simp
  exact ⟨⟨hlen, hvs⟩, eviction_order_fifo _ hlen hvs⟩

end MuseVis
